import Mathlib

/-!
# Verification of the node-red-contrib-turbo command-execution engine

Shallow embedding of the engine implemented in `src/turbo-exec.ts` and of the
path / template helpers in the shared `common` module (`pathParts`, `getPath`,
`setPath`, `setTemplate`).  JavaScript runtime values are modelled by the
inductive type `JVal`; JavaScript numbers are modelled as exact decimals
`m * 10 ^ e` (all values exercised by the spec's claims are integers, where
this coincides with IEEE doubles).  Recursive scanners that mirror JavaScript
regular-expression loops are written with an explicit fuel argument (always
called with fuel larger than the input length) so that they are structurally
recursive and compute by `decide` / `rfl`.
-/

set_option maxRecDepth 10000

/-- A JavaScript runtime value, as far as the engine observes it:
`undefined`, `null`, booleans, numbers (exact decimal `m * 10 ^ e`),
strings, byte `Buffer`s, arrays and plain objects (ordered field lists). -/
inductive JVal where
  | undefined : JVal
  | null : JVal
  | bool : Bool → JVal
  | num : Int → Int → JVal
  | str : String → JVal
  | buf : List Nat → JVal
  | arr : List JVal → JVal
  | obj : List (String × JVal) → JVal
deriving Repr

/-- `v == null` in JavaScript: loose equality with `null` holds exactly for
`undefined` and `null`. -/
def isNullish : JVal → Bool
  | .undefined => true
  | .null => true
  | _ => false

/-- `typeof v === "object" && v !== null`: arrays, plain objects and buffers. -/
def isObjLike : JVal → Bool
  | .arr _ => true
  | .obj _ => true
  | .buf _ => true
  | _ => false

/-- JavaScript truthiness of a `JVal` (`undefined`, `null`, `false`, `0` and
`""` are falsy; every object, array and buffer is truthy). -/
def truthy : JVal → Bool
  | .undefined => false
  | .null => false
  | .bool b => b
  | .num m _ => m ≠ 0
  | .str s => s ≠ ""
  | .buf _ => true
  | .arr _ => true
  | .obj _ => true

/-- JavaScript `a || b`: `b` when `a` is falsy, otherwise `a`. -/
def jsOr (a b : JVal) : JVal := if truthy a then a else b

/-- The engine's parameter resolution `def.x || msg.x || default`
(turbo-exec.ts lines 118-130). -/
def resolveParam (defV msgV defaultV : JVal) : JVal :=
  jsOr (jsOr defV msgV) defaultV

/-- `isBoolean` from turbo-exec.ts: `v === true || v === false`. -/
def isBoolJ : JVal → Bool
  | .bool _ => true
  | _ => false

/-- `isNumber` from turbo-exec.ts: a number that is not `NaN`
(`NaN` is not representable in the exact-decimal model). -/
def isNumJ : JVal → Bool
  | .num _ _ => true
  | _ => false

/-- `limitBytes = limit > 0 ? limit * 1024 * 1024 : 0`
(turbo-exec.ts line 150), on an integral resolved `limit`. -/
def limitBytesOf (limit : Int) : Int :=
  if limit > 0 then limit * 1024 * 1024 else 0

/-- `setTimeout` arming (turbo-exec.ts lines 297-308): a timer is armed with
delay `timeout * 1000` ms only when the resolved `timeout` is positive. -/
def timerDelayMs (timeout : Int) : Option Int :=
  if timeout > 0 then some (timeout * 1000) else none

/-! ## Path resolution (`pathParts`, `getPath`, `setPath` from the common module) -/

/-- A character at which the token regex `[^.\[\]'"]+|'[^']*'|"[^"]*"` cannot
continue an unquoted run: the dot, the brackets and the two quote characters. -/
def pathSpecial (c : Char) : Bool :=
  c == '.' || c == '[' || c == ']' || c == '\'' || c == '"'

/-- Scan up to (and consume) the next occurrence of `stop`; `none` when the
remainder has no such character (an unterminated quoted segment). -/
def takeUntil (stop : Char) : List Char → Option (List Char × List Char)
  | [] => none
  | c :: cs =>
    if c == stop then some ([], cs)
    else (takeUntil stop cs).map (fun r => (c :: r.1, r.2))

/-- One global pass of `/[^.\[\]'"]+|'[^']*'|"[^"]*"/g`: at each position the
engine matches a maximal unquoted run, a single-quoted or a double-quoted
segment, and skips one character when nothing matches.  The fuel argument is
always at least the input length plus one. -/
def regexTokensF : Nat → List Char → List (List Char)
  | 0, _ => []
  | _ + 1, [] => []
  | f + 1, c :: cs =>
    if c == '.' || c == '[' || c == ']' then regexTokensF f cs
    else if c == '\'' || c == '"' then
      match takeUntil c cs with
      | some r => (c :: (r.1 ++ [c])) :: regexTokensF f r.2
      | none => regexTokensF f cs
    else
      (c :: cs.takeWhile (fun d => !pathSpecial d)) ::
        regexTokensF f (cs.dropWhile (fun d => !pathSpecial d))

/-- The post-pass of `pathParts`: a token whose first and last characters are
the same quote character loses those quotes (`prop.slice(1, -1)`). -/
def stripQuotes (l : List Char) : List Char :=
  match l.head?, l.getLast? with
  | some f, some la =>
    if (f == '\'' && la == '\'') || (f == '"' && la == '"') then (l.drop 1).dropLast
    else l
  | _, _ => l

/-- `pathParts` from the common module: tokenize the path, drop a leading
literal `msg` root, then strip matching quotes from each token. -/
def pathParts (path : String) : List String :=
  if path == "" then []
  else
    let toks := regexTokensF (path.toList.length + 1) path.toList
    let toks := if toks.head? == some ("msg".toList) then toks.tail else toks
    toks.map (fun t => String.mk (stripQuotes t))

/-- Whitespace skipped by JavaScript `parseInt`. -/
def jsWs (c : Char) : Bool :=
  c == ' ' || c == '\t' || c == '\n' || c == '\r' || c == '\x0b' || c == '\x0c'

/-- Value of a maximal run of leading decimal digits; `none` when there is
no leading digit. -/
def digitsVal (cs : List Char) : Option Nat :=
  let ds := cs.takeWhile Char.isDigit
  if ds.isEmpty then none
  else some (ds.foldl (fun a c => a * 10 + (c.toNat - 48)) 0)

/-- `parseInt(s, 10)`: skip leading whitespace, take an optional sign and a
maximal run of digits, `NaN` (here `none`) when no digit follows. -/
def parseIntJS (s : String) : Option Int :=
  match s.toList.dropWhile jsWs with
  | '-' :: rest => (digitsVal rest).map (fun n => -(n : Int))
  | '+' :: rest => (digitsVal rest).map (fun n => (n : Int))
  | rest => (digitsVal rest).map (fun n => (n : Int))

/-- The `/^\d+$/` test used by `setPath` to decide whether the next segment
addresses an array. -/
def isDigits (s : String) : Bool :=
  !s.toList.isEmpty && s.toList.all Char.isDigit

/-- A canonical JavaScript array-index string (digits without a redundant
leading zero): exactly the property keys that address array elements in a
raw JavaScript `a[p]` access. -/
def canonicalIdx (s : String) : Option Nat :=
  if isDigits s && (s == "0" || s.toList.head? != some '0') then digitsVal s.toList
  else none

/-- Plain-object field read `o[k]` (`undefined` when the key is absent). -/
def jsGetField (fs : List (String × JVal)) (k : String) : JVal :=
  match fs.find? (fun p => p.1 == k) with
  | some p => p.2
  | none => .undefined

/-- Plain-object field write `o[k] = v`: overwrite in place, else append. -/
def jsSetField (fs : List (String × JVal)) (k : String) (v : JVal) :
    List (String × JVal) :=
  if fs.any (fun p => p.1 == k) then fs.map (fun p => if p.1 == k then (k, v) else p)
  else fs ++ [(k, v)]

/-- Array element read by non-negative position (`undefined` on a hole or
out of range). -/
def arrGetN (xs : List JVal) (n : Nat) : JVal := xs.getD n .undefined

/-- Raw array element read `a[i]` for a possibly negative computed index.
JavaScript would look a negative index up as a non-index property; such
properties are never created in the fragments the claims exercise, so the
read is modelled as `undefined`. -/
def arrGetI (xs : List JVal) (i : Int) : JVal :=
  if i < 0 then .undefined else arrGetN xs i.toNat

/-- Raw buffer element read `b[p]` (a byte number for an in-range canonical
index, otherwise `undefined`). -/
def bufGet (bs : List Nat) (p : String) : JVal :=
  match canonicalIdx p with
  | some i => if i < bs.length then .num (bs.getD i 0 : Int) 0 else .undefined
  | none => .undefined

/-- Array element write with JavaScript hole semantics: writing past the end
pads the intervening slots with `undefined`. -/
def arrPad (xs : List JVal) (i : Nat) (v : JVal) : List JVal :=
  if i < xs.length then xs.set i v
  else xs ++ List.replicate (i - xs.length) .undefined ++ [v]

/-- Raw property read `current[prop]` as performed by `setPath` while walking
down.  Non-index array properties and properties of primitives read as
`undefined` (JavaScript expando properties are invisible to `getPath`'s
element reads and never arise in the claims). -/
def rawGet (cur : JVal) (p : String) : JVal :=
  match cur with
  | .obj fs => jsGetField fs p
  | .arr xs =>
    match canonicalIdx p with
    | some i => arrGetN xs i
    | none => .undefined
  | .buf bs => bufGet bs p
  | _ => .undefined

/-- Raw property write `current[prop] = v` as performed by `setPath` while
walking down.  A non-index key on an array would become a JavaScript expando
property that `getPath` can never read back; it is modelled as dropped.
Writes to buffers and primitives are outside the claims' scope. -/
def rawSet (cur : JVal) (p : String) (v : JVal) : JVal :=
  match cur with
  | .obj fs => .obj (jsSetField fs p v)
  | .arr xs =>
    match canonicalIdx p with
    | some i => .arr (arrPad xs i v)
    | none => cur
  | _ => cur

/-- The replacement container chosen by `setPath` when the walk finds nothing
usable at `prop`: an array when the following segment is all digits, else a
plain object (`current[prop] == null`, or not an object, triggers it). -/
def childCont (cur : JVal) (p next : String) : JVal :=
  let child := rawGet cur p
  if isNullish child || !isObjLike child then
    (if isDigits next then JVal.arr [] else JVal.obj [])
  else child

/-- The traversal loop of `getPath` over the parsed segments. -/
def getGo : JVal → List String → JVal
  | cur, [] => cur
  | cur, p :: rest =>
    match cur with
    | .arr xs =>
      match parseIntJS p with
      | none => .undefined
      | some i => getGo (if i < 0 then arrGetI xs ((xs.length : Int) + i) else arrGetI xs i) rest
    | .obj fs => getGo (jsGetField fs p) rest
    | .buf bs => getGo (bufGet bs p) rest
    | _ => .undefined

/-- `getPath(obj, path)` from the common module. -/
def getPath (obj : JVal) (path : String) : JVal :=
  if isNullish obj || path == "" then .undefined
  else getGo obj (pathParts path)

/-- The final write of `setPath`: arrays go through `parseInt` (no write on
`NaN`, negative indices address from the end; a slot before the start would
become an unreadable expando property, modelled as no write), objects write
the key directly. -/
def setFinal (cur : JVal) (fp : String) (v : JVal) : JVal :=
  match cur with
  | .arr xs =>
    match parseIntJS fp with
    | none => cur
    | some i =>
      if i < 0 then
        if (xs.length : Int) + i < 0 then cur
        else .arr (xs.set ((xs.length : Int) + i).toNat v)
      else .arr (arrPad xs i.toNat v)
  | .obj fs => .obj (jsSetField fs fp v)
  | _ => cur

/-- The descent loop of `setPath`: replace an unusable intermediate with a
fresh container shaped after the next segment, recurse, write back. -/
def setGo : JVal → List String → JVal → JVal
  | cur, [], _ => cur
  | cur, [p], v => setFinal cur p v
  | cur, p :: next :: rest, v =>
    rawSet cur p (setGo (childCont cur p next) (next :: rest) v)

/-- `setPath(obj, path, value)` from the common module (functional rendering
of the in-place mutation).  With an empty segment list the final property is
the JavaScript string form of `undefined`. -/
def setPath (obj : JVal) (path : String) (v : JVal) : JVal :=
  if isNullish obj || path == "" then obj
  else
    match pathParts path with
    | [] => setFinal obj "undefined" v
    | parts => setGo obj parts v

/-- Compatibility of a record with a parsed path: the walk performed by
`setPath` writes where `getPath` will read.  It fails exactly in the
situations where the two sides of the round trip disagree: an existing array
addressed through a non-canonical segment, a final array index before the
start of the array, or a primitive in the middle of the path. -/
def canW : JVal → List String → Bool
  | _, [] => false
  | cur, [p] =>
    match cur with
    | .obj _ => true
    | .arr xs =>
      match parseIntJS p with
      | some i => decide (0 ≤ i) || decide (0 ≤ (xs.length : Int) + i)
      | none => false
    | _ => false
  | cur, p :: next :: rest =>
    (match cur with
     | .obj _ => true
     | .arr _ => (canonicalIdx p).isSome
     | _ => false)
    && canW (childCont cur p next) (next :: rest)

/-! ## UTF-8 decoding and output formatting -/

/-- A UTF-8 continuation byte. -/
def contByte (b : Nat) : Bool := 0x80 ≤ b && b < 0xC0

/-- The replacement character emitted for malformed UTF-8. -/
def replChar : Char := '�'

/-- `Buffer.toString('utf8')`: decode a byte list, mapping malformed
sequences to U+FFFD.  Exact on well-formed input (all the spec's claims);
the per-byte accounting of malformed runs approximates the WHATWG rules. -/
def utf8Decode : List Nat → List Char
  | [] => []
  | b :: rest =>
    if b < 0x80 then Char.ofNat b :: utf8Decode rest
    else if b < 0xC2 then replChar :: utf8Decode rest
    else if b < 0xE0 then
      match rest with
      | b2 :: rest2 =>
        if contByte b2 then Char.ofNat ((b - 0xC0) * 0x40 + (b2 - 0x80)) :: utf8Decode rest2
        else replChar :: utf8Decode (b2 :: rest2)
      | [] => [replChar]
    else if b < 0xF0 then
      match rest with
      | b2 :: b3 :: rest3 =>
        if contByte b2 && contByte b3 then
          let v := (b - 0xE0) * 0x1000 + (b2 - 0x80) * 0x40 + (b3 - 0x80)
          if v < 0x800 || (0xD800 ≤ v && v < 0xE000) then replChar :: utf8Decode rest3
          else Char.ofNat v :: utf8Decode rest3
        else replChar :: utf8Decode (b2 :: b3 :: rest3)
      | [b2] => [replChar, if b2 < 0x80 then Char.ofNat b2 else replChar]
      | [] => [replChar]
    else if b < 0xF5 then
      match rest with
      | b2 :: b3 :: b4 :: rest4 =>
        if contByte b2 && contByte b3 && contByte b4 then
          let v := (b - 0xF0) * 0x40000 + (b2 - 0x80) * 0x1000 + (b3 - 0x80) * 0x40 + (b4 - 0x80)
          if v < 0x10000 || 0x110000 ≤ v then replChar :: utf8Decode rest4
          else Char.ofNat v :: utf8Decode rest4
        else replChar :: utf8Decode (b2 :: b3 :: b4 :: rest4)
      | [b2, b3] => replChar :: utf8Decode [b2, b3]
      | [b2] => [replChar, if b2 < 0x80 then Char.ofNat b2 else replChar]
      | [] => [replChar]
    else replChar :: utf8Decode rest

/-- `Buffer.toString('utf8')` producing a string. -/
def utf8DecodeStr (bs : List Nat) : String := String.mk (utf8Decode bs)

/-! ## JavaScript string coercion and template rendering -/

/-- Decimal rendering of `m * 10 ^ e`.  Exact (and identical to JavaScript
`String(n)`) for integers, which are the only numbers the claims exercise;
for fractions it prints a plain decimal expansion rather than the
shortest-double form. -/
def numRepr (m e : Int) : String :=
  if e = 0 then toString m
  else if 0 < e then toString m ++ String.mk (List.replicate e.toNat '0')
  else
    let s := toString m.natAbs
    let k := (-e).toNat
    let sign := if m < 0 then "-" else ""
    if s.length ≤ k then
      sign ++ "0." ++ String.mk (List.replicate (k - s.length) '0') ++ s
    else
      sign ++ String.mk (s.toList.take (s.length - k)) ++ "." ++
        String.mk (s.toList.drop (s.length - k))

mutual

/-- JavaScript `String(v)` coercion (the coercion `String.prototype.replace`
applies to a replacer callback's return value): `undefined` and `null` print
their own names, arrays join their coerced elements with commas (empty for
`undefined` / `null` elements), plain objects print `[object Object]`, and a
`Buffer` decodes itself as UTF-8. -/
def jsToString : JVal → String
  | .undefined => "undefined"
  | .null => "null"
  | .bool b => cond b "true" "false"
  | .num m e => numRepr m e
  | .str s => s
  | .buf bs => utf8DecodeStr bs
  | .arr xs => String.intercalate "," (jsToStringElems xs)
  | .obj _ => "[object Object]"

def jsToStringElems : List JVal → List String
  | [] => []
  | x :: xs =>
    (match x with
     | .undefined => ""
     | .null => ""
     | x => jsToString x) :: jsToStringElems xs

end

/-- A `\w` word character (`[A-Za-z0-9_]`). -/
def isWordChar (c : Char) : Bool := c.isAlphanum || c == '_'

/-- One global pass of `template.replace(/\x7b\x7b(\w+)\x7d\x7d/g, cb)` where
`cb` resolves the captured word against the context with `getPath` and the
returned value is string-coerced by `replace`.  Fuel is always at least the
input length plus one. -/
def renderTF (ctx : JVal) : Nat → List Char → List Char
  | 0, _ => []
  | _ + 1, [] => []
  | f + 1, c :: cs =>
    if c == '\x7b' && cs.head? == some '\x7b' then
      let rest := cs.tail
      let word := rest.takeWhile isWordChar
      let rest' := rest.dropWhile isWordChar
      if !word.isEmpty && rest'.head? == some '\x7d' && rest'.tail.head? == some '\x7d' then
        (jsToString (getPath ctx (String.mk word))).toList ++ renderTF ctx f (rest'.tail.tail)
      else c :: renderTF ctx f cs
    else c :: renderTF ctx f cs

/-- `setTemplate(template, obj)` from the common module. -/
def setTemplate (template : String) (obj : JVal) : String :=
  String.mk (renderTF obj (template.toList.length + 1) template.toList)

/-! ## JSON (model of `JSON.parse` / `JSON.stringify`) -/

/-- JSON insignificant whitespace. -/
def jsonWs (c : Char) : Bool := c == ' ' || c == '\t' || c == '\n' || c == '\r'

/-- Value of a hexadecimal digit. -/
def hexVal? (c : Char) : Option Nat :=
  if c.isDigit then some (c.toNat - 48)
  else if 'a' ≤ c && c ≤ 'f' then some (c.toNat - 87)
  else if 'A' ≤ c && c ≤ 'F' then some (c.toNat - 55)
  else none

/-- Hexadecimal digit character (lower case), for string escapes. -/
def hexDigit (n : Nat) : Char :=
  if n < 10 then Char.ofNat (48 + n % 16) else Char.ofNat (87 + n % 16)

/-- Decode the body of a JSON string literal (after the opening quote) into
UTF-16 code units, consuming the closing quote. -/
def parseJStrUnits : List Char → Option (List Nat × List Char)
  | [] => none
  | '"' :: rest => some ([], rest)
  | '\\' :: rest =>
    match rest with
    | '"' :: r => (parseJStrUnits r).map (fun p => (34 :: p.1, p.2))
    | '\\' :: r => (parseJStrUnits r).map (fun p => (92 :: p.1, p.2))
    | '/' :: r => (parseJStrUnits r).map (fun p => (47 :: p.1, p.2))
    | 'b' :: r => (parseJStrUnits r).map (fun p => (8 :: p.1, p.2))
    | 'f' :: r => (parseJStrUnits r).map (fun p => (12 :: p.1, p.2))
    | 'n' :: r => (parseJStrUnits r).map (fun p => (10 :: p.1, p.2))
    | 'r' :: r => (parseJStrUnits r).map (fun p => (13 :: p.1, p.2))
    | 't' :: r => (parseJStrUnits r).map (fun p => (9 :: p.1, p.2))
    | 'u' :: a :: b :: c :: d :: r =>
      match hexVal? a, hexVal? b, hexVal? c, hexVal? d with
      | some ha, some hb, some hc, some hd =>
        (parseJStrUnits r).map (fun p =>
          ((ha * 0x1000 + hb * 0x100 + hc * 0x10 + hd) :: p.1, p.2))
      | _, _, _, _ => none
    | _ => none
  | c :: rest =>
    if c.toNat < 32 then none
    else (parseJStrUnits rest).map (fun p => (c.toNat :: p.1, p.2))

/-- Recombine UTF-16 code units into characters: a surrogate pair becomes
one code point; a lone surrogate becomes U+FFFD (Lean strings cannot hold
lone surrogates, which JavaScript strings can — outside the claims'
scope). -/
def unitsToChars : List Nat → List Char
  | [] => []
  | u :: rest =>
    if 0xD800 ≤ u && u < 0xDC00 then
      match rest with
      | u2 :: rest2 =>
        if 0xDC00 ≤ u2 && u2 < 0xE000 then
          Char.ofNat (0x10000 + (u - 0xD800) * 0x400 + (u2 - 0xDC00)) :: unitsToChars rest2
        else replChar :: unitsToChars (u2 :: rest2)
      | [] => [replChar]
    else if 0xDC00 ≤ u && u < 0xE000 then replChar :: unitsToChars rest
    else Char.ofNat u :: unitsToChars rest

/-- Parse the remainder of a JSON string literal (after the opening quote). -/
def parseJStrChars (cs : List Char) : Option (List Char × List Char) :=
  (parseJStrUnits cs).map (fun p => (unitsToChars p.1, p.2))

/-- Parse a JSON number at the head of the input (grammar
`-? (0 | [1-9][0-9]*) frac? exp?`), as an exact decimal. -/
def parseJNum (cs : List Char) : Option (JVal × List Char) :=
  let signRest : Bool × List Char := match cs with | '-' :: r => (true, r) | _ => (false, cs)
  let neg := signRest.1
  let cs1 := signRest.2
  let intPart : Option (Nat × List Char) :=
    match cs1 with
    | '0' :: r => some (0, r)
    | c :: _ =>
      if c.isDigit then
        some ((cs1.takeWhile Char.isDigit).foldl (fun a c => a * 10 + (c.toNat - 48)) 0,
          cs1.dropWhile Char.isDigit)
      else none
    | [] => none
  match intPart with
  | none => none
  | some (iv, r1) =>
    let fracPart : Option (Nat × Nat × List Char) :=
      match r1 with
      | '.' :: r2 =>
        let ds := r2.takeWhile Char.isDigit
        if ds.isEmpty then none
        else some (ds.foldl (fun a c => a * 10 + (c.toNat - 48)) 0, ds.length,
          r2.dropWhile Char.isDigit)
      | _ => some (0, 0, r1)
    match fracPart with
    | none => none
    | some (fv, fk, r2) =>
      let expPart : Option (Int × List Char) :=
        match r2 with
        | 'e' :: r3 | 'E' :: r3 =>
          let esignRest : Bool × List Char :=
            match r3 with | '-' :: r => (true, r) | '+' :: r => (false, r) | _ => (false, r3)
          let ds := esignRest.2.takeWhile Char.isDigit
          if ds.isEmpty then none
          else
            let ev : Nat := ds.foldl (fun a c => a * 10 + (c.toNat - 48)) 0
            some ((if esignRest.1 then -(ev : Int) else (ev : Int)),
              esignRest.2.dropWhile Char.isDigit)
        | _ => some (0, r2)
      match expPart with
      | none => none
      | some (ev, r3) =>
        let mAbs : Nat := iv * 10 ^ fk + fv
        some (.num (if neg then -(mAbs : Int) else (mAbs : Int)) (ev - (fk : Int)), r3)

mutual

/-- Parse one JSON value (fuelled; the fuel spent on each recursive step is
matched by at least one consumed input character, so `2 * length + 2` fuel
always suffices). -/
def parseJValF : Nat → List Char → Option (JVal × List Char)
  | 0, _ => none
  | f + 1, cs =>
    match cs.dropWhile jsonWs with
    | 'n' :: 'u' :: 'l' :: 'l' :: rest => some (.null, rest)
    | 't' :: 'r' :: 'u' :: 'e' :: rest => some (.bool true, rest)
    | 'f' :: 'a' :: 'l' :: 's' :: 'e' :: rest => some (.bool false, rest)
    | '"' :: rest => (parseJStrChars rest).map (fun p => (.str (String.mk p.1), p.2))
    | '[' :: rest =>
      (match rest.dropWhile jsonWs with
       | ']' :: rest2 => some (.arr [], rest2)
       | _ => (parseJElemsF f rest).map (fun p => (.arr p.1, p.2)))
    | '\x7b' :: rest =>
      (match rest.dropWhile jsonWs with
       | '\x7d' :: rest2 => some (.obj [], rest2)
       | _ => (parseJFieldsF f rest).map (fun p => (.obj p.1, p.2)))
    | rest => parseJNum rest

/-- Parse the elements of a non-empty JSON array up to `]`. -/
def parseJElemsF : Nat → List Char → Option (List JVal × List Char)
  | 0, _ => none
  | f + 1, cs =>
    match parseJValF f cs with
    | none => none
    | some (v, rest) =>
      match rest.dropWhile jsonWs with
      | ',' :: rest2 => (parseJElemsF f rest2).map (fun p => (v :: p.1, p.2))
      | ']' :: rest2 => some ([v], rest2)
      | _ => none

/-- Parse the members of a non-empty JSON object up to the closing brace. -/
def parseJFieldsF : Nat → List Char → Option (List (String × JVal) × List Char)
  | 0, _ => none
  | f + 1, cs =>
    match cs.dropWhile jsonWs with
    | '"' :: rest =>
      (match parseJStrChars rest with
       | none => none
       | some (k, rest2) =>
         match rest2.dropWhile jsonWs with
         | ':' :: rest3 =>
           (match parseJValF f rest3 with
            | none => none
            | some (v, rest4) =>
              match rest4.dropWhile jsonWs with
              | ',' :: rest5 => (parseJFieldsF f rest5).map (fun p => ((String.mk k, v) :: p.1, p.2))
              | '\x7d' :: rest5 => some ([(String.mk k, v)], rest5)
              | _ => none)
         | _ => none)
    | _ => none

end

/-- `JSON.parse(s)` returning `none` where JavaScript throws a
`SyntaxError`: parse one value, then require only whitespace to follow.
(Objects keep every member in source order; a duplicated key is observed
at its first position — a divergence from JavaScript's last-wins rule
possible only for duplicate keys, which the claims do not exercise.) -/
def jsonParse (s : String) : Option JVal :=
  match parseJValF (2 * s.toList.length + 2) s.toList with
  | some (v, rest) => if (rest.dropWhile jsonWs).isEmpty then some v else none
  | none => none

/-- Escape one character for a JSON string literal, as `JSON.stringify`
does (`"`, `\`, short escapes for the common controls, `\u00XX` for the
rest of the control range). -/
def jsonQuoteChar (c : Char) : List Char :=
  if c = '"' then ['\\', '"']
  else if c = '\\' then ['\\', '\\']
  else if c = '\x08' then ['\\', 'b']
  else if c = '\x0c' then ['\\', 'f']
  else if c = '\n' then ['\\', 'n']
  else if c = '\r' then ['\\', 'r']
  else if c = '\t' then ['\\', 't']
  else if c.toNat < 32 then ['\\', 'u', '0', '0', hexDigit (c.toNat / 16), hexDigit c.toNat]
  else [c]

/-- A JSON string literal for `s`, quotes included. -/
def jsonQuote (s : String) : String :=
  "\"" ++ String.mk (s.toList.map jsonQuoteChar).flatten ++ "\""

mutual

/-- `JSON.stringify(v)`: `none` exactly for `undefined` (JavaScript returns
the value `undefined`, not a string).  Circular structures, the only inputs
on which `JSON.stringify` throws, cannot exist in the inductive model. -/
def jsonStringify : JVal → Option String
  | .undefined => none
  | .null => some "null"
  | .bool b => some (cond b "true" "false")
  | .num m e => some (numRepr m e)
  | .str s => some (jsonQuote s)
  | .buf bs =>
    some ("\x7b\"type\":\"Buffer\",\"data\":[" ++
      String.intercalate "," (bs.map (fun b => toString b)) ++ "]\x7d")
  | .arr xs => some ("[" ++ String.intercalate "," (jsonStringifyElems xs) ++ "]")
  | .obj fs => some ("\x7b" ++ String.intercalate "," (jsonStringifyFields fs) ++ "\x7d")

/-- Array elements: an `undefined` element prints as `null`. -/
def jsonStringifyElems : List JVal → List String
  | [] => []
  | x :: xs => ((jsonStringify x).getD "null") :: jsonStringifyElems xs

/-- Object members: a member whose value is `undefined` is omitted. -/
def jsonStringifyFields : List (String × JVal) → List String
  | [] => []
  | (k, v) :: fs =>
    match jsonStringify v with
    | some s => (jsonQuote k ++ ":" ++ s) :: jsonStringifyFields fs
    | none => jsonStringifyFields fs

end

/-! ## Output formatting (`baseFormatText` / `formatText`, turbo-exec.ts 339-364) -/

/-- ANSI parameter characters accepted by the stripping regex. -/
def ansiParam (c : Char) : Bool := c.isDigit || c == ';'

/-- One global pass of `text.replace(/\x1b\[[0-9;]*m/g, '')`: remove every
`ESC [ params m` sequence, leave everything else.  Fuel is always at least
the input length plus one. -/
def stripAnsiF : Nat → List Char → List Char
  | 0, _ => []
  | _ + 1, [] => []
  | f + 1, c :: cs =>
    if c == '\x1b' then
      match cs with
      | '[' :: rest =>
        (match rest.dropWhile ansiParam with
         | 'm' :: tail => stripAnsiF f tail
         | _ => c :: stripAnsiF f cs)
      | _ => c :: stripAnsiF f cs
    else c :: stripAnsiF f cs

/-- `text.replace(/\x1b\[[0-9;]*m/g, '')` on strings. -/
def stripAnsiStr (s : String) : String :=
  String.mk (stripAnsiF (s.toList.length + 1) s.toList)

/-- JavaScript `String.prototype.trim` (the Lean trim; JavaScript also trims
a few rarer Unicode spaces, which never occur in the claims). -/
def trimJS (s : String) : String := s.trim

/-- `baseFormatText` (turbo-exec.ts 349-362): the per-format text decoder,
`none` for the `buffer` format (and any unknown format name).
`json` parses with fallback to the raw text, `split` splits on newlines,
trims and drops empties, `string` is the identity. -/
def baseFormatText (format : String) : Option (String → JVal) :=
  if format == "json" then
    some (fun text =>
      match jsonParse text with
      | some v => v
      | none => .str text)
  else if format == "split" then
    some (fun text =>
      .arr ((((text.splitOn "\n").map (fun l => trimJS l)).filter (fun l => l != "")).map .str))
  else if format == "string" then some (fun text => .str text)
  else none

/-- `formatText` (turbo-exec.ts 364): ANSI stripping is composed in front of
the base formatter whenever `strip` is truthy and a base formatter exists. -/
def formatText (strip : Bool) (format : String) : Option (String → JVal) :=
  match baseFormatText format with
  | some base => if strip then some (fun text => base (stripAnsiStr text)) else some base
  | none => none

/-! ## The process runner state machine (turbo-exec.ts 261-486) -/

/-- The engine configuration that the stream handlers close over. -/
structure Cfg where
  streaming : Bool
  limitBytes : Int
  format : String
  strip : Bool
deriving Repr

/-- The mutable `exec` record (`ExecData` in turbo-exec.ts), holding the
accumulators, the running byte counter and the terminal fields.  Wall-clock
fields (`start`, `time`, `end`) carry no claim content and are omitted;
`killSent` records that `cp.kill('SIGTERM')` was issued and `ended` that the
close or error callback ran. -/
structure ExecSt where
  out : List (List Nat) := []
  err : List (List Nat) := []
  len : Int := 0
  error : Option String := none
  code : Option Int := none
  signal : Option String := none
  success : Option Bool := none
  killSent : Bool := false
  ended : Bool := false
deriving Repr

/-- The state at spawn time. -/
def initSt : ExecSt := {}

/-- Output message topics on the node's four outputs. -/
inductive Topic where
  | start
  | out
  | err
  | exit
deriving Repr, DecidableEq

/-- One message sent to the host (`this.send`). -/
structure OutMsg where
  topic : Topic
  payload : JVal
deriving Repr

/-- Events delivered by the platform to the registered callbacks: stdout and
stderr data chunks, the `close` event (exit code / signal) and the `error`
event (spawn failure). -/
inductive PEvent where
  | dataOut (chunk : List Nat)
  | dataErr (chunk : List Nat)
  | close (code : Option Int) (signal : Option String)
  | errorEv (message : String)
deriving Repr

/-- `onBufferLimit` (turbo-exec.ts 339-347): record the limit error and send
`SIGTERM`. -/
def onBufferLimit (limitBytes : Int) (st : ExecSt) : ExecSt :=
  { st with
    error := some ("buffer limit exceeded (" ++ toString limitBytes ++ " bytes)")
    killSent := true }

/-- The stdout / stderr `data` handler (turbo-exec.ts 366-416): append the
chunk, bump the byte counter, kill on limit excess (and send nothing), else
in streaming mode emit one formatted chunk message on the matching output. -/
def onData (cfg : Cfg) (st : ExecSt) (chunk : List Nat) (isOut : Bool) :
    ExecSt × List OutMsg :=
  let st1 :=
    if isOut then { st with out := st.out ++ [chunk], len := st.len + chunk.length }
    else { st with err := st.err ++ [chunk], len := st.len + chunk.length }
  if cfg.limitBytes > 0 && st1.len > cfg.limitBytes then
    (onBufferLimit cfg.limitBytes st1, [])
  else if cfg.streaming then
    let payload :=
      match formatText cfg.strip cfg.format with
      | some f => f (utf8DecodeStr chunk)
      | none => .buf chunk
    (st1, [{ topic := if isOut then Topic.out else Topic.err, payload := payload }])
  else (st1, [])

/-- The `close` handler (turbo-exec.ts 418-454): record `code || 0`, the
signal and `success = (code === 0 && !exec.error)`, format the concatenated
stdout accumulator and emit exactly one exit message.  (Recorded error
strings are always non-empty, so `!exec.error` is `error = none`.) -/
def onClose (cfg : Cfg) (st : ExecSt) (code : Option Int) (signal : Option String) :
    ExecSt × List OutMsg :=
  let st1 := { st with
    ended := true
    code := some (match code with | some c => c | none => 0)
    signal := signal
    success := some (decide (code = some 0 ∧ st.error = none)) }
  let payload :=
    match formatText cfg.strip cfg.format with
    | some f => f (utf8DecodeStr st1.out.flatten)
    | none => .buf st1.out.flatten
  (st1, [{ topic := Topic.exit, payload := payload }])

/-- The `error` handler (turbo-exec.ts 456-486): record the message, mark
failure and emit exactly one exit message whose payload is the message. -/
def onError (st : ExecSt) (message : String) : ExecSt × List OutMsg :=
  let st1 := { st with error := some message, success := some false, ended := true }
  (st1, [{ topic := Topic.exit, payload := .str message }])

/-- The timeout callback (turbo-exec.ts 299-307): record `error = "timeout"`
and send `SIGTERM`; the state is not terminal until the platform confirms
the exit through the `close` handler. -/
def fireTimeout (st : ExecSt) : ExecSt :=
  { st with error := some "timeout", killSent := true }

/-- Dispatch one platform event to the registered handler. -/
def stepEv (cfg : Cfg) (st : ExecSt) : PEvent → ExecSt × List OutMsg
  | .dataOut chunk => onData cfg st chunk true
  | .dataErr chunk => onData cfg st chunk false
  | .close c s => onClose cfg st c s
  | .errorEv m => onError st m

/-- Run one invocation against a list of delivered platform events: in
streaming mode a `start` message is sent at spawn (its payload is the
incoming message, claim-irrelevant, modelled as `undefined`), then each
event is handled in order and the emitted messages are concatenated. -/
def runEvents (cfg : Cfg) (evs : List PEvent) : ExecSt × List OutMsg :=
  evs.foldl
    (fun acc ev =>
      let r := stepEv cfg acc.1 ev
      (r.1, acc.2 ++ r.2))
    (initSt, if cfg.streaming then [{ topic := Topic.start, payload := JVal.undefined }] else [])

/-- Number of `exit`-topic messages in a sent batch. -/
def exitCount (ms : List OutMsg) : Nat :=
  (ms.filter (fun m => m.topic == Topic.exit)).length

/-- Number of terminal platform events (`close` or `error`) in a trace. -/
def countTerminal (evs : List PEvent) : Nat :=
  (evs.filter (fun e =>
    match e with
    | .close _ _ => true
    | .errorEv _ => true
    | _ => false)).length

/-! ## Stdin injection (turbo-exec.ts 310-334) -/

/-- What reaches the child's stdin. -/
inductive StdinWrite where
  | bufferW (bytes : List Nat)
  | textW (s : String)
  | writeFailed
deriving Repr, DecidableEq

/-- The stdin write (turbo-exec.ts 315-327): a `Buffer` passes through
unchanged, anything else is `JSON.stringify`-ed; the `String(...)` fallback
fires only when `JSON.stringify` throws, which no inductive value can
cause.  `JSON.stringify(undefined)` is the value `undefined`, whose write
throws inside the guarded block, so nothing is written and the stream is
not closed (`writeFailed`). -/
def stdinPayload (v : JVal) : StdinWrite :=
  match v with
  | .buf bs => .bufferW bs
  | v =>
    match jsonStringify v with
    | some s => .textW s
    | none => .writeFailed

/-- The stdin write for a message and configured stdin source path. -/
def stdinWriteFor (msg : JVal) (stdinPath : String) : StdinWrite :=
  stdinPayload (getPath msg stdinPath)

/-- Whether `cp.stdin.end()` is reached (it directly follows a successful
write). -/
def stdinClosed (w : StdinWrite) : Bool :=
  match w with
  | .writeFailed => false
  | _ => true

/-! ## Build cache (turbo-exec.ts 168-258, compiled-language path) -/

/-- The cache metadata document `.red_turbo_<id>.json`. -/
structure CacheMetadata where
  updated : Option Int := none
  runCmd : Option String := none
  mainCmd : Option String := none
  cmdArgs : Option (List String) := none
deriving Repr, DecidableEq

/-- `needsRebuild = !cache || cache.updated !== updated || !existsSync(buildFile)`
(turbo-exec.ts 192).  The local `cache` is initialized to an empty object and
is never null, so `!cache` is constantly false and is dropped. -/
def needsRebuild (cache : CacheMetadata) (updated : Int) (buildFileExists : Bool) : Bool :=
  decide (cache.updated ≠ some updated) || !buildFileExists

/-- `runCmd.trim().split(/\s+/)` (turbo-exec.ts 221): splitting the empty
trimmed string yields one empty token, as in JavaScript, so the result is
never empty. -/
def splitCmd (s : String) : List String :=
  let t := trimJS s
  if t == "" then [""]
  else (t.split Char.isWhitespace).filter (fun x => x != "")

/-- The observable outcome of the cache decision (turbo-exec.ts 176-258):
whether a rebuild happened, what was written to the scratch script file,
which build command ran, the spawned command and arguments, and the cache
document written back. -/
structure BuildOutcome where
  rebuilt : Bool
  scriptWritten : Option String
  buildRun : Option String
  mainCmd : String
  cmdArgs : List String
  newCache : Option CacheMetadata
deriving Repr, DecidableEq

/-- The compiled-language command resolution: on `needsRebuild`, write the
script, run the (rendered, non-blank) build command, parse the rendered run
command and persist the new cache document (which stores the raw `cmd`
template in `runCmd`); otherwise the hit guard `cache.mainCmd && cache.cmdArgs`
reuses the stored command — by JavaScript truthiness only when the stored
`mainCmd` string is non-empty (an array `cmdArgs` is truthy even when empty) —
and otherwise falls back to re-rendering and re-parsing the run command,
without persisting the result. -/
def resolveCommand (cache : CacheMetadata) (updated : Int) (buildFileExists : Bool)
    (script : String) (buildCmd : String) (cmdTemplate : String) (runCmd : String) :
    BuildOutcome :=
  if needsRebuild cache updated buildFileExists then
    let parts := splitCmd runCmd
    let mc := parts.headD ""
    let args := parts.tail
    { rebuilt := true
      scriptWritten := some script
      buildRun := if trimJS buildCmd != "" then some buildCmd else none
      mainCmd := mc
      cmdArgs := args
      newCache := some { updated := some updated, runCmd := some cmdTemplate,
                         mainCmd := some mc, cmdArgs := some args } }
  else
    match cache.mainCmd, cache.cmdArgs with
    | some mc, some args =>
      if mc != "" then
        { rebuilt := false, scriptWritten := none, buildRun := none,
          mainCmd := mc, cmdArgs := args, newCache := none }
      else
        let parts := splitCmd runCmd
        { rebuilt := false, scriptWritten := none, buildRun := none,
          mainCmd := parts.headD "", cmdArgs := parts.tail, newCache := none }
    | _, _ =>
      let parts := splitCmd runCmd
      { rebuilt := false, scriptWritten := none, buildRun := none,
        mainCmd := parts.headD "", cmdArgs := parts.tail, newCache := none }

/-! ## Theorems

First the helper lemmas for the `setPath` / `getPath` round trip, then one
theorem (plus witness or counterexample where required) per claim. -/

theorem jsGetField_jsSetField (fs : List (String × JVal)) (k : String) (v : JVal) :
    jsGetField (jsSetField fs k v) k = v := by
  induction fs with
  | nil => simp [jsSetField, jsGetField]
  | cons hd tl ih =>
    rcases hd with ⟨hk, hv⟩
    by_cases h : hk = k
    · subst h
      simp [jsSetField, jsGetField]
    · by_cases h2 : tl.any (fun p => p.1 == k) = true
      · simpa [jsSetField, jsGetField, h, h2] using ih
      · simpa [jsSetField, jsGetField, h, h2] using ih

theorem arrGetN_set (xs : List JVal) (j : Nat) (v : JVal) (h : j < xs.length) :
    arrGetN (xs.set j v) j = v := by
  simp [arrGetN, List.getD, List.getElem?_set_eq_of_lt v h]

theorem arrGetN_arrPad (xs : List JVal) (i : Nat) (v : JVal) :
    arrGetN (arrPad xs i v) i = v := by
  unfold arrPad
  by_cases h : i < xs.length
  · simp [h, arrGetN_set xs i v h]
  · simp only [h, if_false]
    simp [arrGetN, List.getD, List.getElem?_append_right, Nat.le_of_not_lt h]

theorem jsWs_eq_false_of_isDigit (c : Char) (h : c.isDigit = true) : jsWs c = false := by
  by_cases h1 : c = ' '
  · subst h1; exact absurd h (by decide)
  by_cases h2 : c = '\t'
  · subst h2; exact absurd h (by decide)
  by_cases h3 : c = '\n'
  · subst h3; exact absurd h (by decide)
  by_cases h4 : c = '\r'
  · subst h4; exact absurd h (by decide)
  by_cases h5 : c = '\x0b'
  · subst h5; exact absurd h (by decide)
  by_cases h6 : c = '\x0c'
  · subst h6; exact absurd h (by decide)
  simp [jsWs, h1, h2, h3, h4, h5, h6]

theorem parseIntJS_of_canonical (p : String) (k : Nat) (h : canonicalIdx p = some k) :
    parseIntJS p = some (k : Int) := by
  unfold canonicalIdx at h
  split at h
  case isFalse => cases h
  case isTrue hcond =>
    have hd : isDigits p = true := by
      rcases Bool.and_eq_true .. |>.mp hcond with ⟨hd, _⟩
      exact hd
    unfold isDigits at hd
    rcases Bool.and_eq_true .. |>.mp hd with ⟨hne, hall⟩
    obtain ⟨c, cs, hcs⟩ : ∃ c cs, p.toList = c :: cs := by
      cases hc : p.toList with
      | nil => rw [hc] at hne; simp at hne
      | cons a as => exact ⟨a, as, rfl⟩
    have hcd : c.isDigit = true := by
      have := List.all_eq_true.mp hall
      exact this c (by rw [hcs]; exact List.mem_cons_self c cs)
    have hws : jsWs c = false := jsWs_eq_false_of_isDigit c hcd
    have hneg : c ≠ '-' := by intro e; rw [e] at hcd; exact absurd hcd (by decide)
    have hpos : c ≠ '+' := by intro e; rw [e] at hcd; exact absurd hcd (by decide)
    unfold parseIntJS
    rw [hcs]
    rw [List.dropWhile_cons_of_neg (by simp [hws])]
    have hm : (match c :: cs with
        | '-' :: rest => (digitsVal rest).map (fun n => -(n : Int))
        | '+' :: rest => (digitsVal rest).map (fun n => (n : Int))
        | rest => (digitsVal rest).map (fun n => (n : Int))) =
        (digitsVal (c :: cs)).map (fun n => (n : Int)) := by
      split
      · rename_i heq; rw [List.cons.injEq] at heq; exact absurd heq.1 hneg
      · rename_i heq; rw [List.cons.injEq] at heq; exact absurd heq.1 hpos
      · rfl
    rw [hm, ← hcs, h]
    rfl

theorem getGo_setGo : ∀ (parts : List String) (cur v : JVal),
    canW cur parts = true → getGo (setGo cur parts v) parts = v
  | [], cur, v, h => by simp [canW] at h
  | [p], cur, v, h => by
    match cur with
    | .undefined | .null | .bool _ | .num _ _ | .str _ | .buf _ => simp [canW] at h
    | .obj fs =>
      simp [setGo, setFinal, getGo, jsGetField_jsSetField]
    | .arr xs =>
      simp only [canW] at h
      rcases hp : parseIntJS p with _ | i
      · rw [hp] at h; simp at h
      · rw [hp] at h
        rcases Bool.or_eq_true .. |>.mp h with hi | hi
        · have hi' : 0 ≤ i := of_decide_eq_true hi
          have hlt : ¬ i < 0 := not_lt.mpr hi'
          simp only [setGo, setFinal, hp, hlt, if_false, getGo]
          simp [arrGetI, hlt, arrGetN_arrPad]
        · have hi' : 0 ≤ (xs.length : Int) + i := of_decide_eq_true hi
          by_cases hneg : i < 0
          · have hj : ¬ (xs.length : Int) + i < 0 := not_lt.mpr hi'
            simp only [setGo, setFinal, hp, hneg, if_true, hj, if_false, getGo]
            have hjlt : ((xs.length : Int) + i).toNat < xs.length := by omega
            simp [arrGetI, List.length_set, not_lt.mpr hi', arrGetN_set _ _ _ hjlt]
          · have hi0 : 0 ≤ i := not_lt.mp hneg
            simp only [setGo, setFinal, hp, hneg, if_false, getGo]
            simp [arrGetI, hneg, arrGetN_arrPad]
  | p :: next :: rest, cur, v, h => by
    simp only [canW, Bool.and_eq_true] at h
    obtain ⟨hcond, hrec⟩ := h
    match cur with
    | .undefined | .null | .bool _ | .num _ _ | .str _ | .buf _ => simp at hcond
    | .obj fs =>
      simp only [setGo, rawSet, getGo]
      rw [jsGetField_jsSetField]
      exact getGo_setGo (next :: rest) _ v hrec
    | .arr xs =>
      rcases hck : canonicalIdx p with _ | k
      · rw [hck] at hcond; simp [Option.isSome] at hcond
      · have hpi : parseIntJS p = some (k : Int) := parseIntJS_of_canonical p k hck
        simp only [setGo, rawSet, hck, getGo, hpi]
        have hknn : ¬ (k : Int) < 0 := by omega
        simp [arrGetI, hknn, arrGetN_arrPad]
        exact getGo_setGo (next :: rest) _ v hrec

theorem isNullish_setGo (cur : JVal) (parts : List String) (v : JVal)
    (h : isObjLike cur = true) : isNullish (setGo cur parts v) = false := by
  match parts, cur with
  | _, .undefined | _, .null | _, .bool _ | _, .num _ _ | _, .str _ => simp [isObjLike] at h
  | [], cur =>
    match cur with
    | .obj _ | .arr _ | .buf _ => simp [setGo, isNullish]
  | [p], .obj fs => simp [setGo, setFinal, isNullish]
  | [p], .buf bs => simp [setGo, setFinal, isNullish]
  | [p], .arr xs =>
    simp only [setGo, setFinal]
    rcases parseIntJS p with _ | i
    · simp [isNullish]
    · by_cases hn : i < 0 <;> by_cases hj : (xs.length : Int) + i < 0 <;>
        simp [hn, hj, isNullish]
  | p :: next :: rest, .obj fs => simp [setGo, rawSet, isNullish]
  | p :: next :: rest, .buf bs => simp [setGo, rawSet, isNullish]
  | p :: next :: rest, .arr xs =>
    simp only [setGo, rawSet]
    rcases canonicalIdx p with _ | k <;> simp [isNullish]

theorem canW_isObjLike (cur : JVal) (parts : List String) (h : canW cur parts = true) :
    isObjLike cur = true := by
  match parts, cur with
  | [], _ => simp [canW] at h
  | [p], .obj _ => rfl
  | [p], .arr _ => rfl
  | [p], .undefined | [p], .null | [p], .bool _ | [p], .num _ _ | [p], .str _ | [p], .buf _ =>
    simp [canW] at h
  | p :: next :: rest, .obj _ => rfl
  | p :: next :: rest, .arr _ => rfl
  | p :: next :: rest, .undefined | p :: next :: rest, .null | p :: next :: rest, .bool _
  | p :: next :: rest, .num _ _ | p :: next :: rest, .str _ | p :: next :: rest, .buf _ =>
    simp [canW] at h

/-- C5 (amended): `setPath` followed by `getPath` on the same path returns
the assigned value for every record compatible with the parsed path — the
path has at least one effective segment after root stripping and no existing
container along it clashes with a segment's kind (`canW`); in particular for
any record in which the assigned branch is absent.  The unrestricted claim
fails: see the counterexample below. -/
theorem pathResolver_roundtrip (record : JVal) (path : String) (v : JVal)
    (h : canW record (pathParts path) = true) :
    getPath (setPath record path v) path = v := by
  have hne : pathParts path ≠ [] := by
    intro e; rw [e] at h; simp [canW] at h
  obtain ⟨p, rest, hp⟩ : ∃ p rest, pathParts path = p :: rest := by
    cases hpp : pathParts path with
    | nil => exact absurd hpp hne
    | cons a as => exact ⟨a, as, rfl⟩
  have hobj : isObjLike record = true := canW_isObjLike record _ h
  have hrecNN : isNullish record = false := by
    match record with
    | .obj _ | .arr _ | .buf _ => rfl
    | .undefined | .null | .bool _ | .num _ _ | .str _ => simp [isObjLike] at hobj
  have hpathne : path ≠ "" := by
    intro e; subst e; simp [pathParts] at hp
  have hbeq : (path == "") = false := by
    simp [hpathne]
  have hset : setPath record path v = setGo record (p :: rest) v := by
    unfold setPath
    rw [hp]
    simp [hrecNN, hbeq]
  rw [hset]
  unfold getPath
  rw [isNullish_setGo record (p :: rest) v hobj, hbeq, hp]
  simp only [Bool.or_self, Bool.false_eq_true, if_false]
  exact getGo_setGo (p :: rest) record v (hp ▸ h)

/-- C5 witness: the round trip at a concrete compatible input — assigning
`"ok"` at `a[2].b['x.y']` into an empty record and resolving it back. -/
theorem pathResolver_roundtrip_witness :
    canW (JVal.obj []) (pathParts "a[2].b['x.y']") = true ∧
      getPath (setPath (JVal.obj []) "a[2].b['x.y']" (JVal.str "ok")) "a[2].b['x.y']" =
        JVal.str "ok" :=
  ⟨by decide, pathResolver_roundtrip (JVal.obj []) "a[2].b['x.y']" (JVal.str "ok") (by decide)⟩

/-- C5 counterexample: on the record `{a: [1]}` and the identifier-segment
path `a.b`, `setPath` silently drops the write (the existing array is kept
for the `a` slot and the final `parseInt('b')` is `NaN`), so resolving the
same path yields `undefined`, not the assigned `"x"`: the claim's
unrestricted round trip is false. -/
theorem pathResolver_roundtrip_cex :
    getPath (setPath (JVal.obj [("a", JVal.arr [JVal.num 1 0])]) "a.b" (JVal.str "x")) "a.b" =
        JVal.undefined ∧
      JVal.undefined ≠ JVal.str "x" :=
  ⟨by rfl, by simp⟩


/-- C1 (code behaviour at the claimed configuration): with the node
definition's `limit` set to `0` and no `limit` on the message, the `||`
resolution replaces the falsy `0` by the default `10`, so `limitBytes` is
`10485760` — not `0` — and any stdout chunk of 11 MiB trips the limit: the
handler records `buffer limit exceeded (10485760 bytes)` and sends the kill.
The code's own unlimited branch (`limit > 0 ? … : 0`, validation allowing
`limit = 0`) is unreachable, contradicting the documented `0 = unlimited`. -/
theorem limit_zero_config_is_replaced_by_default (chunk : List Nat)
    (h : chunk.length = 11534336) :
    resolveParam (.num 0 0) .undefined (.num 10 0) = .num 10 0
    ∧ limitBytesOf 10 = 10485760
    ∧ limitBytesOf 0 = 0
    ∧ ((onData { streaming := false, limitBytes := 10485760, format := "string", strip := true }
          initSt chunk true).1.error = some "buffer limit exceeded (10485760 bytes)"
      ∧ (onData { streaming := false, limitBytes := 10485760, format := "string", strip := true }
          initSt chunk true).1.killSent = true
      ∧ (onData { streaming := false, limitBytes := 10485760, format := "string", strip := true }
          initSt chunk true).2 = []) := by
  refine ⟨rfl, by norm_num [limitBytesOf], by norm_num [limitBytesOf], ?_, ?_, ?_⟩
  · simp [onData, onBufferLimit, initSt, h]
    rfl
  · simp [onData, onBufferLimit, initSt, h]
  · simp [onData, onBufferLimit, initSt, h]

/-- C1 witness: the evaluation at an explicit 11 MiB chunk. -/
theorem limit_zero_config_is_replaced_by_default_witness :
    (List.replicate 11534336 (0 : Nat)).length = 11534336
    ∧ ((onData { streaming := false, limitBytes := 10485760, format := "string", strip := true }
          initSt (List.replicate 11534336 (0 : Nat)) true).1.error =
        some "buffer limit exceeded (10485760 bytes)") :=
  ⟨List.length_replicate 11534336 0,
    (limit_zero_config_is_replaced_by_default (List.replicate 11534336 0)
      (List.length_replicate 11534336 0)).2.2.2.1⟩
/-- C2 (code behaviour at the claimed configuration): with the node
definition's `timeout` set to `0` and no `timeout` on the message, the `||`
resolution replaces the falsy `0` by the default `30`, so a timer is armed
at 30000 ms even though the code has an explicit no-timer branch for
`timeout = 0` (which the resolution makes unreachable).  The remainder of
the claim matches the code: the timer callback records `"timeout"` and sends
the kill without ending the invocation; the terminal state is only reached
by the `close` confirmation, which then reports failure. -/
theorem timeout_zero_config_is_replaced_by_default :
    resolveParam (.num 0 0) .undefined (.num 30 0) = .num 30 0
    ∧ timerDelayMs 0 = none
    ∧ timerDelayMs 30 = some 30000
    ∧ (fireTimeout initSt).error = some "timeout"
    ∧ (fireTimeout initSt).killSent = true
    ∧ (fireTimeout initSt).ended = false
    ∧ (onClose { streaming := false, limitBytes := 10485760, format := "string", strip := true }
        (fireTimeout initSt) none (some "SIGTERM")).1.ended = true
    ∧ (onClose { streaming := false, limitBytes := 10485760, format := "string", strip := true }
        (fireTimeout initSt) none (some "SIGTERM")).1.success = some false := by
  refine ⟨rfl, rfl, rfl, rfl, rfl, rfl, rfl, ?_⟩
  simp [onClose, fireTimeout, initSt]

/-- C3 (amended): the `close` handler reports `success = true` exactly when
the platform delivered exit code `0` and no error had been recorded; the
recorded `exitCode` is `code || 0` and the recorded error is unchanged.
Because `code || 0` coerces a signal exit (`code = null`) to `0`, a recorded
`exitCode` of `0` with an empty error does not conversely imply success. -/
theorem success_iff_exit_zero_and_no_error (cfg : Cfg) (st : ExecSt)
    (code : Option Int) (signal : Option String) :
    ((onClose cfg st code signal).1.success = some true ↔ code = some 0 ∧ st.error = none)
    ∧ (onClose cfg st code signal).1.code = some (code.getD 0)
    ∧ (onClose cfg st code signal).1.error = st.error := by
  refine ⟨?_, ?_, rfl⟩
  · simp [onClose]
  · simp [onClose]
    cases code <;> rfl

/-- C3 witness: the amended equivalence at a concrete input — a normal
`exit 0` close with no prior error reports success. -/
theorem success_iff_exit_zero_and_no_error_witness :
    ((onClose { streaming := false, limitBytes := 0, format := "string", strip := true }
        initSt (some 0) none).1.success = some true ↔ some 0 = some (0 : Int) ∧
          initSt.error = none)
      ∧ (onClose { streaming := false, limitBytes := 0, format := "string", strip := true }
          initSt (some 0) none).1.code = some ((some (0 : Int)).getD 0)
      ∧ (onClose { streaming := false, limitBytes := 0, format := "string", strip := true }
          initSt (some 0) none).1.error = initSt.error :=
  success_iff_exit_zero_and_no_error _ initSt (some 0) none

/-- C3 counterexample: a process killed by an external signal (close with
`code = null`, `signal = "SIGTERM"`, no recorded error) records
`exitCode = 0` and an empty error, yet `success = false` — refuting the
claimed "success iff recorded exitCode = 0 and no error recorded". -/
theorem success_iff_cex :
    (onClose { streaming := false, limitBytes := 0, format := "string", strip := true }
        initSt none (some "SIGTERM")).1.code = some 0
    ∧ (onClose { streaming := false, limitBytes := 0, format := "string", strip := true }
        initSt none (some "SIGTERM")).1.error = none
    ∧ (onClose { streaming := false, limitBytes := 0, format := "string", strip := true }
        initSt none (some "SIGTERM")).1.success = some false := by
  refine ⟨rfl, rfl, ?_⟩
  simp [onClose, initSt]

theorem exitCount_append (a b : List OutMsg) :
    exitCount (a ++ b) = exitCount a + exitCount b := by
  simp [exitCount, List.filter_append]

def terminalWeight : PEvent → Nat
  | .close _ _ => 1
  | .errorEv _ => 1
  | _ => 0

theorem exitCount_onData (cfg : Cfg) (st : ExecSt) (chunk : List Nat) (isOut : Bool) :
    exitCount (onData cfg st chunk isOut).2 = 0 := by
  cases isOut <;>
    · unfold onData
      simp only [Bool.false_eq_true, if_true, if_false]
      split
      · simp [exitCount]
      · split
        · simp [exitCount]
        · simp [exitCount]

theorem exitCount_stepEv (cfg : Cfg) (st : ExecSt) (ev : PEvent) :
    exitCount (stepEv cfg st ev).2 = terminalWeight ev := by
  match ev with
  | .close c s => simp [stepEv, onClose, exitCount, terminalWeight]
  | .errorEv m => simp [stepEv, onError, exitCount, terminalWeight]
  | .dataOut chunk => simpa [stepEv, terminalWeight] using exitCount_onData cfg st chunk true
  | .dataErr chunk => simpa [stepEv, terminalWeight] using exitCount_onData cfg st chunk false

theorem countTerminal_cons (e : PEvent) (rest : List PEvent) :
    countTerminal (e :: rest) = terminalWeight e + countTerminal rest := by
  match e with
  | .close c s =>
    simp only [countTerminal, List.filter_cons, terminalWeight]
    simp [Nat.add_comm]
  | .errorEv m =>
    simp only [countTerminal, List.filter_cons, terminalWeight]
    simp [Nat.add_comm]
  | .dataOut chunk => simp [countTerminal, List.filter_cons, terminalWeight]
  | .dataErr chunk => simp [countTerminal, List.filter_cons, terminalWeight]

theorem exitCount_runGo (cfg : Cfg) (evs : List PEvent) :
    ∀ (st : ExecSt) (acc : List OutMsg),
      exitCount (evs.foldl
        (fun acc ev =>
          let r := stepEv cfg acc.1 ev
          (r.1, acc.2 ++ r.2)) (st, acc)).2 =
      exitCount acc + countTerminal evs := by
  induction evs with
  | nil => intro st acc; simp [countTerminal]
  | cons e rest ih =>
    intro st acc
    have hstep : (e :: rest).foldl
        (fun acc ev =>
          let r := stepEv cfg acc.1 ev
          (r.1, acc.2 ++ r.2)) (st, acc) =
        rest.foldl
          (fun acc ev =>
            let r := stepEv cfg acc.1 ev
            (r.1, acc.2 ++ r.2)) ((stepEv cfg st e).1, acc ++ (stepEv cfg st e).2) := rfl
    rw [hstep, ih, exitCount_append, exitCount_stepEv, countTerminal_cons]
    omega

/-- C4 (amended): for every configuration and every trace of platform
events, the number of exit messages emitted equals the number of terminal
platform events (`close` or `error`) delivered — each terminal callback
unconditionally sends exactly one exit message, data chunks never do, and
the handlers never throw across the host boundary (they are total).  When
the platform delivers exactly one terminal event, the host receives exactly
one exit message; the handlers carry no once-guard, so a trace with both an
`error` and a `close` produces two (see the counterexample). -/
theorem one_exit_per_terminal_event (cfg : Cfg) (evs : List PEvent) :
    exitCount (runEvents cfg evs).2 = countTerminal evs := by
  unfold runEvents
  rw [exitCount_runGo]
  have hz : exitCount (if cfg.streaming then
      [{ topic := Topic.start, payload := JVal.undefined }] else []) = 0 := by
    by_cases h : cfg.streaming <;> simp [h, exitCount]
  omega

/-- C4 counterexample: a spawn failure, where Node emits the `error` event
and — the stdio pipes having been created and destroyed — a `close` event
afterwards, produces two exit messages for one invocation: the claimed
"never more than one" fails because neither handler is guarded against the
other having already fired. -/
theorem one_exit_per_terminal_event_cex :
    exitCount (runEvents
      { streaming := false, limitBytes := 10485760, format := "string", strip := true }
      [PEvent.errorEv "spawn ENOENT", PEvent.close none none]).2 = 2 := by
  rfl

theorem renderTF_nil (ctx : JVal) (f : Nat) : renderTF ctx f [] = [] := by
  cases f <;> rfl

theorem takeWhile_word_append (name : List Char) (t : List Char)
    (h : name.all isWordChar = true)
    (hhd : ∀ c, t.head? = some c → isWordChar c = false) :
    (name ++ t).takeWhile isWordChar = name ∧ (name ++ t).dropWhile isWordChar = t := by
  induction name with
  | nil =>
    cases t with
    | nil => simp
    | cons c ts =>
      have := hhd c rfl
      simp [List.takeWhile_cons, List.dropWhile_cons, this]
  | cons a rest ih =>
    have hsplit : isWordChar a = true ∧ rest.all isWordChar = true := by
      rw [List.all_cons] at h
      exact Bool.and_eq_true .. |>.mp h
    have := ih hsplit.2
    simp [List.takeWhile_cons, List.dropWhile_cons, hsplit.1, this.1, this.2]

theorem string_mk_toList (s : String) : String.mk s.toList = s := by
  rcases s with ⟨d⟩
  rfl

theorem renderTF_token (ctx : JVal) (name : List Char) (f : Nat)
    (h1 : name ≠ []) (h2 : name.all isWordChar = true) :
    renderTF ctx (f + 1) ('\x7b' :: '\x7b' :: (name ++ ['\x7d', '\x7d'])) =
      (jsToString (getPath ctx (String.mk name))).toList := by
  have htw := takeWhile_word_append name ['\x7d', '\x7d'] h2
    (by intro c hc; cases hc; decide)
  have hne : name.isEmpty = false := by
    cases name with
    | nil => exact absurd rfl h1
    | cons a as => rfl
  unfold renderTF
  simp only [List.head?, List.tail, htw.1, htw.2, hne]
  simp [renderTF_nil]

/-- C6 (amended): `setTemplate` substitutes every `\x7b\x7bname\x7d\x7d`
token with the JavaScript string coercion of the value resolved at `name`:
a string or number value verbatim, but any other value via `String(v)` —
`"undefined"` only for `undefined` (a missing path), `"null"` for `null`,
the comma-joined elements for an array, `"[object Object]"` for a plain
object.  The claim's "any non-scalar becomes `undefined`" holds only for
`undefined` itself (see the counterexample). -/
theorem template_token_coercion (ctx : JVal) (name : String)
    (h1 : name.toList ≠ []) (h2 : name.toList.all isWordChar = true) :
    setTemplate ("\x7b\x7b" ++ name ++ "\x7d\x7d") ctx = jsToString (getPath ctx name)
    ∧ (∀ s, getPath ctx name = .str s → jsToString (getPath ctx name) = s)
    ∧ (∀ m, getPath ctx name = .num m 0 → jsToString (getPath ctx name) = toString m)
    ∧ jsToString JVal.undefined = "undefined"
    ∧ jsToString JVal.null = "null"
    ∧ jsToString (JVal.obj []) = "[object Object]" := by
  refine ⟨?_, ?_, ?_, rfl, rfl, rfl⟩
  · have hlist : ("\x7b\x7b" ++ name ++ "\x7d\x7d").toList =
        '\x7b' :: '\x7b' :: (name.toList ++ ['\x7d', '\x7d']) := by
      simp [String.toList, String.data_append]
    unfold setTemplate
    rw [hlist]
    rw [renderTF_token ctx name.toList _ h1 h2]
    rw [string_mk_toList, string_mk_toList]
  · intro s hs
    rw [hs]
    rfl
  · intro m hm
    rw [hm]
    simp [jsToString, numRepr]

/-- C6 witness: the amended substitution at a concrete scalar binding. -/
theorem template_token_coercion_witness :
    ("a".toList ≠ [] ∧ "a".toList.all isWordChar = true)
    ∧ setTemplate "\x7b\x7ba\x7d\x7d" (JVal.obj [("a", JVal.str "v")]) =
        jsToString (getPath (JVal.obj [("a", JVal.str "v")]) "a") :=
  ⟨⟨by decide, by decide⟩,
    (template_token_coercion (JVal.obj [("a", JVal.str "v")]) "a" (by decide) (by decide)).1⟩

/-- C6 counterexample: an array-valued token substitutes as the JavaScript
coercion `"1,2"`, not as the claimed `"undefined"`. -/
theorem template_token_coercion_cex :
    setTemplate "\x7b\x7ba\x7d\x7d" (JVal.obj [("a", JVal.arr [JVal.num 1 0, JVal.num 2 0])]) =
        "1,2"
    ∧ ("1,2" : String) ≠ "undefined" :=
  ⟨by rfl, by decide⟩

/-- C7 (amended): the stdin conversion passes a `Buffer` through unchanged
and `JSON.stringify`s every other value — including string scalars, which
are therefore written with JSON quotes, not as-is (see the counterexample);
`String(...)` coercion is only the fallback for a throwing stringify, which
no inductive value triggers.  After any successful write the input stream
is closed; only the `undefined` stringify result (whose write throws inside
the guarded block) leaves it open. -/
theorem stdin_conversion (v : JVal) :
    (∀ bs, v = .buf bs → stdinPayload v = .bufferW bs)
    ∧ (∀ s, v = .str s → stdinPayload v = .textW (jsonQuote s))
    ∧ (v ≠ .undefined → (∀ bs, v ≠ .buf bs) →
        ∃ t, jsonStringify v = some t ∧ stdinPayload v = .textW t ∧
          stdinClosed (stdinPayload v) = true)
    ∧ stdinClosed (stdinPayload JVal.undefined) = false := by
  refine ⟨?_, ?_, ?_, rfl⟩
  · intro bs h; subst h; rfl
  · intro s h; subst h; rfl
  · intro hnu hnb
    match v with
    | .undefined => exact absurd rfl hnu
    | .buf bs => exact absurd rfl (hnb bs)
    | .null => exact ⟨_, rfl, rfl, rfl⟩
    | .bool b => exact ⟨_, rfl, rfl, rfl⟩
    | .num m e => exact ⟨_, rfl, rfl, rfl⟩
    | .str s => exact ⟨_, rfl, rfl, rfl⟩
    | .arr xs => exact ⟨_, rfl, rfl, rfl⟩
    | .obj fs => exact ⟨_, rfl, rfl, rfl⟩

/-- C7 witness: the conversion at a concrete string value. -/
theorem stdin_conversion_witness :
    stdinPayload (JVal.str "hello") = .textW (jsonQuote "hello") :=
  (stdin_conversion (JVal.str "hello")).2.1 "hello" rfl

/-- C7 counterexample: a plain string resolved for stdin is JSON-stringified,
so `"hello"` reaches the child as `"hello"` wrapped in JSON quotes — the
claimed quote-free string coercion for scalars is false. -/
theorem stdin_string_quoted_cex :
    stdinPayload (JVal.str "hello") = .textW "\"hello\""
    ∧ ("\"hello\"" : String) ≠ "hello" :=
  ⟨rfl, by decide⟩

/-- C8: the `json` output format decodes the bytes as UTF-8 and then returns
the parsed JSON value when the parse succeeds and the decoded text unchanged
when it fails; the formatter is a total function, so no input makes it
throw.  (Two sample points: a JSON object parses, non-JSON text falls back
verbatim.) -/
theorem json_format_parse_or_fallback (bytes : List Nat) :
    (∃ f, baseFormatText "json" = some f ∧
      ((∃ v, jsonParse (utf8DecodeStr bytes) = some v ∧ f (utf8DecodeStr bytes) = v) ∨
        (jsonParse (utf8DecodeStr bytes) = none ∧
          f (utf8DecodeStr bytes) = .str (utf8DecodeStr bytes))))
    ∧ jsonParse "\x7b\"a\":1\x7d" = some (.obj [("a", .num 1 0)])
    ∧ jsonParse "not json" = none := by
  refine ⟨⟨_, rfl, ?_⟩, by rfl, by rfl⟩
  cases h : jsonParse (utf8DecodeStr bytes) with
  | some v => exact Or.inl ⟨v, rfl, by simp [h]⟩
  | none => exact Or.inr ⟨rfl, by simp [h]⟩

/-- C9 (amended): a cache entry is reused exactly while its stored `updated`
stamp equals the node definition's `updated` value and the build artifact
file exists; either mismatch forces the rebuild path (script rewritten,
non-blank build command run, run command reparsed, cache document rewritten
with the new stamp and parsed command).  On a hit, the stored command is
reused — by the JavaScript truthiness of `cache.mainCmd && cache.cmdArgs`,
only when the stored command string is non-empty — without writing or
building; a blank or missing stored command makes the hit re-parse the
rendered run command instead, still without rebuilding or persisting.  The
script content itself is never hashed or compared — it plays no part in the
decision (counterexample). -/
theorem cache_reuse_keyed_on_updated (cache : CacheMetadata) (updated : Int) (bfe : Bool)
    (script buildCmd cmdTemplate runCmd : String) :
    (needsRebuild cache updated bfe = false ↔ cache.updated = some updated ∧ bfe = true)
    ∧ (resolveCommand cache updated bfe script buildCmd cmdTemplate runCmd).rebuilt =
        needsRebuild cache updated bfe
    ∧ (needsRebuild cache updated bfe = true →
        (resolveCommand cache updated bfe script buildCmd cmdTemplate runCmd).scriptWritten =
            some script
          ∧ (resolveCommand cache updated bfe script buildCmd cmdTemplate runCmd).buildRun =
            (if trimJS buildCmd != "" then some buildCmd else none)
          ∧ (resolveCommand cache updated bfe script buildCmd cmdTemplate runCmd).mainCmd =
            (splitCmd runCmd).headD ""
          ∧ (resolveCommand cache updated bfe script buildCmd cmdTemplate runCmd).newCache =
            some { updated := some updated, runCmd := some cmdTemplate,
                   mainCmd := some ((splitCmd runCmd).headD ""),
                   cmdArgs := some (splitCmd runCmd).tail })
    ∧ (∀ mc args, needsRebuild cache updated bfe = false →
        cache.mainCmd = some mc → mc ≠ "" → cache.cmdArgs = some args →
        (resolveCommand cache updated bfe script buildCmd cmdTemplate runCmd).mainCmd = mc
          ∧ (resolveCommand cache updated bfe script buildCmd cmdTemplate runCmd).cmdArgs = args
          ∧ (resolveCommand cache updated bfe script buildCmd cmdTemplate runCmd).scriptWritten =
            none
          ∧ (resolveCommand cache updated bfe script buildCmd cmdTemplate runCmd).buildRun =
            none)
    ∧ (needsRebuild cache updated bfe = false →
        (cache.mainCmd = none ∨ cache.mainCmd = some "" ∨ cache.cmdArgs = none) →
        (resolveCommand cache updated bfe script buildCmd cmdTemplate runCmd).mainCmd =
            (splitCmd runCmd).headD ""
          ∧ (resolveCommand cache updated bfe script buildCmd cmdTemplate runCmd).cmdArgs =
            (splitCmd runCmd).tail
          ∧ (resolveCommand cache updated bfe script buildCmd cmdTemplate runCmd).scriptWritten =
            none
          ∧ (resolveCommand cache updated bfe script buildCmd cmdTemplate runCmd).buildRun =
            none
          ∧ (resolveCommand cache updated bfe script buildCmd cmdTemplate runCmd).newCache =
            none) := by
  refine ⟨?_, ?_, ?_, ?_, ?_⟩
  · unfold needsRebuild
    cases bfe <;> by_cases h : cache.updated = some updated <;> simp [h]
  · unfold resolveCommand
    by_cases h : needsRebuild cache updated bfe = true
    · simp [h]
    · rw [Bool.not_eq_true] at h
      rcases hm : cache.mainCmd with _ | mc <;> rcases ha : cache.cmdArgs with _ | args <;>
        simp [h, hm, ha]
      split <;> rfl
  · intro h
    unfold resolveCommand
    simp [h]
  · intro mc args h hm hne ha
    unfold resolveCommand
    simp [h, hm, ha, hne]
  · intro h hcase
    unfold resolveCommand
    rcases hcase with hm | hm | ha
    · rcases ha : cache.cmdArgs with _ | args <;> simp [h, hm, ha]
    · rcases ha : cache.cmdArgs with _ | args <;> simp [h, hm, ha]
    · rcases hm : cache.mainCmd with _ | mc <;> simp [h, hm, ha]

/-- C9 witness: at a concrete hit (matching stamp, artifact present, cached
non-empty command), the stored command is reused without rebuilding. -/
theorem cache_reuse_keyed_on_updated_witness :
    needsRebuild
        { updated := some 5, runCmd := some "node old.js",
          mainCmd := some "node", cmdArgs := some ["old.js"] } 5 true = false
    ∧ (resolveCommand
        { updated := some 5, runCmd := some "node old.js",
          mainCmd := some "node", cmdArgs := some ["old.js"] } 5 true
        "console.log(1)" "" "node new.js" "node new.js").mainCmd = "node" :=
  ⟨by decide,
    ((cache_reuse_keyed_on_updated
      { updated := some 5, runCmd := some "node old.js",
        mainCmd := some "node", cmdArgs := some ["old.js"] } 5 true
      "console.log(1)" "" "node new.js" "node new.js").2.2.2.1 "node" ["old.js"]
      (by decide) rfl (by decide) rfl).1⟩

/-- C9 counterexample: two invocations whose script contents differ but whose
`updated` stamp matches the cache produce the same outcome with no rebuild
and the stale stored command — the script's content hash plays no role, so
"any content change forces a rebuild" is false. -/
theorem cache_reuse_keyed_on_updated_cex :
    resolveCommand
        { updated := some 5, runCmd := some "node old.js",
          mainCmd := some "node", cmdArgs := some ["old.js"] } 5 true
        "console.log(1)" "" "node new.js" "node new.js" =
      resolveCommand
        { updated := some 5, runCmd := some "node old.js",
          mainCmd := some "node", cmdArgs := some ["old.js"] } 5 true
        "console.log(2)" "" "node new.js" "node new.js"
    ∧ (resolveCommand
        { updated := some 5, runCmd := some "node old.js",
          mainCmd := some "node", cmdArgs := some ["old.js"] } 5 true
        "console.log(1)" "" "node new.js" "node new.js").rebuilt = false
    ∧ (resolveCommand
        { updated := some 5, runCmd := some "node old.js",
          mainCmd := some "node", cmdArgs := some ["old.js"] } 5 true
        "console.log(1)" "" "node new.js" "node new.js").cmdArgs = ["old.js"] :=
  ⟨by decide, by decide, by decide⟩

/-- C10: for the text-producing formats (`string`, `json`, `split`), ANSI
stripping cannot be disabled: whenever the resolved strip value
`false || msg.strip || true` passes the boolean validation it is `true`
(a `false` node-definition strip with any non-`true` message strip falls
through to the default), and the composed formatter applies the
`ESC [ params m` removal before the base format. -/
theorem strip_always_applied (mstrip : JVal) (format : String)
    (hf : format = "string" ∨ format = "json" ∨ format = "split")
    (hb : isBoolJ (resolveParam (.bool false) mstrip (.bool true)) = true) :
    resolveParam (.bool false) mstrip (.bool true) = .bool true
    ∧ ∃ base f, baseFormatText format = some base ∧ formatText true format = some f ∧
        ∀ t, f t = base (stripAnsiStr t) := by
  constructor
  · have h1 : resolveParam (.bool false) mstrip (.bool true) =
        if truthy mstrip = true then mstrip else JVal.bool true := by
      simp [resolveParam, jsOr, truthy]
    rw [h1] at hb ⊢
    by_cases ht : truthy mstrip = true
    · rw [if_pos ht] at hb ⊢
      cases mstrip with
      | bool b =>
        cases b with
        | false => exact absurd ht (by decide)
        | true => rfl
      | undefined => simp [isBoolJ] at hb
      | null => simp [isBoolJ] at hb
      | num m e => simp [isBoolJ] at hb
      | str s => simp [isBoolJ] at hb
      | buf bs => simp [isBoolJ] at hb
      | arr xs => simp [isBoolJ] at hb
      | obj fs => simp [isBoolJ] at hb
    · rw [if_neg ht]
  · rcases hf with h | h | h <;> subst h <;>
      exact ⟨_, _, rfl, rfl, fun t => rfl⟩

/-- C10 witness: with no strip field on the message and a `false`
node-definition strip, the resolved strip is `true` and the `string`
formatter strips ANSI sequences first. -/
theorem strip_always_applied_witness :
    isBoolJ (resolveParam (.bool false) JVal.undefined (.bool true)) = true
    ∧ (resolveParam (.bool false) JVal.undefined (.bool true) = .bool true
      ∧ ∃ base f, baseFormatText "string" = some base ∧ formatText true "string" = some f ∧
          ∀ t, f t = base (stripAnsiStr t)) :=
  ⟨by decide, strip_always_applied JVal.undefined "string" (Or.inl rfl) (by decide)⟩
